import Mathlib

/-!
Verification of the RPC multiplexing core of `src/bridge.ts` (classes
`Controller` and `PyBridge` plus the embedded Python hook).

The TypeScript source is shallowly embedded:

* JSON payload values crossing the pipe are modelled by the scalar fragment
  `JVal` (enough to express every claim; the protocol treats payloads as
  opaque, and JavaScript truthiness — the only operation the host applies to
  a payload — is defined per scalar).
* `RpcMessage` mirrors the `RpcMessage` interface (bridge.ts lines 8–14);
  the `result?: any` field is omitted because no line of bridge.ts ever
  reads or writes it.
* Mutable state (`messageId`, `subscribers`, the chunk buffer, the
  `controllers` cache) is threaded explicitly; JavaScript objects used as
  integer- or string-keyed maps become functions into `Option`.
* `schema.parse` (zod) is modelled as a function `JVal → Option JVal`:
  `some` is the parsed value, `none` is a thrown `ZodError`.
* The fused parse-and-dispatch loop of `read` (lines 125–136) is split into
  a pure decode pass followed by a dispatch pass; this is
  semantics-preserving because `JSON.parse` neither reads nor writes the
  subscriber table and dispatch never changes how later lines parse.
-/

namespace PyBridgeZod

/-- Scalar JSON values: the fragment of payload values needed by the claims.
Payloads are opaque to the bridge except for JavaScript truthiness. -/
inductive JVal where
  | jnull
  | jbool (b : Bool)
  | jnum (n : Int)
  | jstr (s : String)
  deriving DecidableEq, Repr

/-- JavaScript truthiness of a scalar value: `null`, `false`, `0` and the
empty string are falsy; everything else here is truthy. -/
def jsTruthy : JVal → Bool
  | .jnull => false
  | .jbool b => b
  | .jnum n => n != 0
  | .jstr s => s != ""

/-- The `RpcMessage` interface (bridge.ts lines 8–14).  A field that is
absent from the JSON object is `none`.  The unused `result?: any` field is
omitted (no code reads or writes it). -/
structure RpcMessage where
  id : Nat
  ready : Option Bool := none
  yield : Option JVal := none
  error : Option String := none
  deriving DecidableEq, Repr

/-- Truthiness of `data.ready` (`undefined` is falsy). -/
def truthyReady : Option Bool → Bool
  | none => false
  | some b => b

/-- Truthiness of `data.yield` (`undefined` is falsy). -/
def truthyYield : Option JVal → Bool
  | none => false
  | some v => jsTruthy v

/-- Truthiness of `data.error` (`undefined` and `""` are falsy). -/
def truthyError : Option String → Bool
  | none => false
  | some s => s != ""

/-- Notifications delivered to the rxjs `Subject` of one call. -/
inductive SubjectOp where
  | next (v : JVal)
  | error (e : String)
  | complete
  deriving DecidableEq, Repr

/-- The subscriber callback registered by `Controller.send`
(bridge.ts lines 149–163).  Returns the subject notifications it performs
and whether it deleted its own `subscribers` entry.  The whole body runs
inside `try { ... } catch {}`: a throwing `schema.parse` (modelled by
`σ v = none`) is swallowed, producing no notification at all. -/
def sinkCallback (σ : JVal → Option JVal) (data : RpcMessage) :
    List SubjectOp × Bool :=
  if truthyReady data.ready then ([], false)
  else if truthyYield data.yield then
    match data.yield with
    | some v =>
      match σ v with
      | some w => ([.next w], false)
      | none => ([], false)
    | none => ([], false)
  else
    match data.error with
    | some e => if e = "" then ([.complete], true) else ([.error e], true)
    | none => ([.complete], true)

/-- A Boolean shorthand: the subscriber callback deletes its entry exactly
when the message is neither ready-truthy nor yield-truthy (both the error
branch and the completion branch delete). -/
def unregisters (m : RpcMessage) : Bool :=
  !truthyReady m.ready && !truthyYield m.yield

/-- Mutable state of one `Controller`: the `messageId` counter and the
`subscribers` object (integer-keyed map from correlation id to the
schema captured by that call's callback). -/
structure CtrlState where
  messageId : Nat
  subscribers : Nat → Option (JVal → Option JVal)

/-- A freshly constructed `Controller`: `messageId = 0`, no subscribers. -/
def ctrlInit : CtrlState := ⟨0, fun _ => none⟩

/-- Dispatch of one decoded message (bridge.ts lines 129–131): look the
sink up by `res.id`; if present, invoke it.  Returns the new state, the
sink invocations `(id, message)` performed, and the subject notifications
`(id, op)` produced. -/
def dispatch (st : CtrlState) (res : RpcMessage) :
    CtrlState × List (Nat × RpcMessage) × List (Nat × SubjectOp) :=
  match st.subscribers res.id with
  | none => (st, [], [])
  | some σ =>
    let r := sinkCallback σ res
    let subs := if r.2
      then (fun i => if i = res.id then none else st.subscribers i)
      else st.subscribers
    (⟨st.messageId, subs⟩, [(res.id, res)], r.1.map (fun o => (res.id, o)))

/-- Dispatch of a list of decoded messages in order (the `for` loop of
`read`, bridge.ts lines 125–136). -/
def dispatchAll (st : CtrlState) :
    List RpcMessage → CtrlState × List (Nat × RpcMessage) × List (Nat × SubjectOp)
  | [] => (st, [], [])
  | m :: ms =>
    let r := dispatch st m
    let rest := dispatchAll r.1 ms
    (rest.1, r.2.1 ++ rest.2.1, r.2.2 ++ rest.2.2)

/-- An encoded call request (bridge.ts lines 164–166). -/
structure CallRequest where
  id : Nat
  method : String
  args : List JVal
  deriving DecidableEq, Repr

/-- The state-changing part of `Controller.send` (bridge.ts lines
144–168): allocate `messageId` and post-increment it, register the
subscriber under the allocated id, write the encoded request.  Returns the
allocated id, the written request, and the new state. -/
def send (st : CtrlState) (method : String) (args : List JVal)
    (σ : JVal → Option JVal) : Nat × CallRequest × CtrlState :=
  (st.messageId, ⟨st.messageId, method, args⟩,
    ⟨st.messageId + 1,
      fun i => if i = st.messageId then some σ else st.subscribers i⟩)

/-- Whitespace as trimmed by JavaScript `String.prototype.trim` (ASCII
fragment relevant to the protocol). -/
def isWsChar (c : Char) : Bool :=
  c = ' ' || c = '\n' || c = '\t' || c = '\r'

/-- Model of `.trim()`: drop whitespace from both ends. -/
def trimCh (l : List Char) : List Char :=
  ((l.dropWhile isWsChar).reverse.dropWhile isWsChar).reverse

/-- Model of `.split("\n")`: JavaScript semantics, so `"a\n"` splits into
`["a", ""]` and consecutive newlines yield empty segments. -/
def splitNl : List Char → List (List Char)
  | [] => [[]]
  | c :: rest =>
    if c = '\n' then [] :: splitNl rest
    else
      match splitNl rest with
      | [] => [[c]]
      | l :: ls => (c :: l) :: ls

/-- Decimal digit test. -/
def isDigitCh (c : Char) : Bool := '0' ≤ c && c ≤ '9'

/-- Numeric value of a digit string. -/
def digitsVal (ds : List Char) : Nat :=
  ds.foldl (fun a c => a * 10 + (c.toNat - '0'.toNat)) 0

/-- Skip JSON insignificant whitespace. -/
def skipWs : List Char → List Char := List.dropWhile isWsChar

/-- Consume an exact token, returning the remainder. -/
def dropTok (tok : List Char) (l : List Char) : Option (List Char) :=
  if tok.isPrefixOf l then some (l.drop tok.length) else none

/-- Parse a decimal natural number prefix. -/
def parseNatTok (l : List Char) : Option (Nat × List Char) :=
  let ds := l.takeWhile isDigitCh
  if ds.isEmpty then none else some (digitsVal ds, l.drop ds.length)

/-- Parse a JSON number prefix (integer fragment). -/
def parseIntTok (l : List Char) : Option (Int × List Char) :=
  match l with
  | '-' :: rest => (parseNatTok rest).map (fun p => (-(p.1 : Int), p.2))
  | _ => (parseNatTok l).map (fun p => ((p.1 : Int), p.2))

/-- Parse a JSON string literal prefix (escape-free fragment). -/
def parseStrTok : List Char → Option (String × List Char)
  | '"' :: rest =>
    let body := rest.takeWhile (fun c => c ≠ '"')
    match rest.drop body.length with
    | '"' :: rem => some (String.mk body, rem)
    | _ => none
  | _ => none

/-- Parse a scalar JSON value prefix. -/
def parseScalarTok (l : List Char) : Option (JVal × List Char) :=
  match dropTok ("null".toList) l with
  | some r => some (.jnull, r)
  | none =>
    match dropTok ("true".toList) l with
    | some r => some (.jbool true, r)
    | none =>
      match dropTok ("false".toList) l with
      | some r => some (.jbool false, r)
      | none =>
        match parseStrTok l with
        | some (s, r) => some (.jstr s, r)
        | none => (parseIntTok l).map (fun p => (.jnum p.1, p.2))

/-- Model of `JSON.parse` restricted to the four wire-protocol record
shapes (spec section 6), with scalar payloads and the `id` field first, as
every message printed by the hook and by `Controller.send` is laid out.  A
record not of this restricted shape decodes to `none`, which the dispatch
loop treats exactly as the code treats a `JSON.parse` exception or an
unknown id: the line is dropped. -/
def parseRpc (l0 : List Char) : Option RpcMessage := do
  let l1 ← dropTok ("\x7b".toList) (skipWs l0)
  let l2 ← dropTok ("\"id\"".toList) (skipWs l1)
  let l3 ← dropTok (":".toList) (skipWs l2)
  let (n, l4) ← parseNatTok (skipWs l3)
  match skipWs l4 with
  | '}' :: rest => if (skipWs rest).isEmpty then some ⟨n, none, none, none⟩ else none
  | ',' :: rest =>
    let r := skipWs rest
    match dropTok ("\"yield\"".toList) r with
    | some r1 => do
      let r2 ← dropTok (":".toList) (skipWs r1)
      let (v, r3) ← parseScalarTok (skipWs r2)
      let r4 ← dropTok ("\x7d".toList) (skipWs r3)
      if (skipWs r4).isEmpty then some ⟨n, none, some v, none⟩ else none
    | none =>
      match dropTok ("\"error\"".toList) r with
      | some r1 => do
        let r2 ← dropTok (":".toList) (skipWs r1)
        let (s, r3) ← parseStrTok (skipWs r2)
        let r4 ← dropTok ("\x7d".toList) (skipWs r3)
        if (skipWs r4).isEmpty then some ⟨n, none, none, some s⟩ else none
      | none =>
        match dropTok ("\"ready\"".toList) r with
        | some r1 => do
          let r2 ← dropTok (":".toList) (skipWs r1)
          let r3 ← dropTok ("true".toList) (skipWs r2)
          let r4 ← dropTok ("\x7d".toList) (skipWs r3)
          if (skipWs r4).isEmpty then some ⟨n, some true, none, none⟩ else none
        | none => none
  | _ => none

/-- The guard on line 126: `message.startsWith('{"')`. -/
def startsWithBraceQuote : List Char → Bool
  | '{' :: '"' :: _ => true
  | _ => false

/-- One line of the extracted batch: skipped unless it starts with the two
characters of a JSON object opener, then decoded (a decode failure is
dropped with a diagnostic, bridge.ts lines 126–135). -/
def decodeLine (m : List Char) : Option RpcMessage :=
  if startsWithBraceQuote m then parseRpc m else none

/-- A `Controller` together with its chunk buffer (`buffer: Buffer[]`,
bridge.ts line 116); chunks are byte strings, modelled as `List Char`. -/
structure SessionState where
  ctrl : CtrlState
  buffer : List (List Char)

/-- Everything observable about a run of the `read` callback: final state,
messages successfully decoded (line 128), sink invocations (line 131) and
subject notifications. -/
structure ReadOut where
  state : SessionState
  decoded : List RpcMessage
  invoked : List (Nat × RpcMessage)
  subjOps : List (Nat × SubjectOp)

/-- One invocation of the `data` callback `read` (bridge.ts lines
116–139): push the chunk; if the chunk contains a newline, concatenate the
buffered chunks, trim, split on newlines, decode and dispatch each line,
then clear the whole buffer (`buffer.length = 0`, line 137); otherwise
just buffer the chunk. -/
def readChunk (s : SessionState) (c : List Char) : ReadOut :=
  let buf := s.buffer ++ [c]
  if c.contains '\n' then
    let msgs := (splitNl (trimCh buf.flatten)).filterMap decodeLine
    let d := dispatchAll s.ctrl msgs
    ⟨⟨d.1, []⟩, msgs, d.2.1, d.2.2⟩
  else ⟨⟨s.ctrl, buf⟩, [], [], []⟩

/-- Successive `data` events. -/
def readChunks (s : SessionState) : List (List Char) → ReadOut
  | [] => ⟨s, [], [], []⟩
  | c :: cs =>
    let r := readChunk s c
    let rest := readChunks r.state cs
    ⟨rest.state, r.decoded ++ rest.decoded, r.invoked ++ rest.invoked,
      r.subjOps ++ rest.subjOps⟩

/-- One step of a session's interleaved history: either a caller invokes
`Controller.send`, or one decoded response line is dispatched by `read`. -/
inductive TraceOp where
  | callReq (method : String) (args : List JVal) (σ : JVal → Option JVal)
  | respLine (m : RpcMessage)

/-- Observables of a trace run: final controller state, correlation ids
allocated by the `callReq` steps in order, sink invocations and subject
notifications produced by the `respLine` steps in order. -/
structure RunOut where
  state : CtrlState
  allocs : List Nat
  invoked : List (Nat × RpcMessage)
  subjOps : List (Nat × SubjectOp)

/-- Run an interleaved trace of call requests and decoded response lines. -/
def runTrace (st : CtrlState) : List TraceOp → RunOut
  | [] => ⟨st, [], [], []⟩
  | .callReq mth a σ :: ops =>
    let s := send st mth a σ
    let r := runTrace s.2.2 ops
    ⟨r.state, s.1 :: r.allocs, r.invoked, r.subjOps⟩
  | .respLine msg :: ops =>
    let d := dispatch st msg
    let r := runTrace d.1 ops
    ⟨r.state, r.allocs, d.2.1 ++ r.invoked, d.2.2 ++ r.subjOps⟩

/-- The decoded response lines of a trace, in processing order. -/
def linesOf : List TraceOp → List RpcMessage
  | [] => []
  | .callReq _ _ _ :: ops => linesOf ops
  | .respLine m :: ops => m :: linesOf ops

/-- Number of `callReq` steps of a trace. -/
def numCalls : List TraceOp → Nat
  | [] => 0
  | .callReq _ _ _ :: ops => numCalls ops + 1
  | .respLine _ :: ops => numCalls ops

/-- The messages a single registered sink is invoked with, given the
stream of messages carrying its own id: every message in order, stopping
after the first one whose handling deletes the subscription. -/
def sinkTrace : Bool → List RpcMessage → List RpcMessage
  | false, _ => []
  | true, [] => []
  | true, m :: ms => m :: sinkTrace (!unregisters m) ms

/-- Projection of the invocation log onto one sink. -/
def deliveredTo (j : Nat) (ds : List (Nat × RpcMessage)) : List RpcMessage :=
  (ds.filter (fun d => d.1 == j)).map Prod.snd

/-- Projection of the notification log onto one subject. -/
def opsTo (j : Nat) (os : List (Nat × SubjectOp)) : List SubjectOp :=
  (os.filter (fun o => o.1 == j)).map Prod.snd

/-- Well-formedness of a controller state: every registered correlation id
is below the `messageId` counter. -/
def wfCtrl (st : CtrlState) : Prop :=
  ∀ i, (st.subscribers i).isSome = true → i < st.messageId

/-- Behaviour of the remote method named in one call, as the Python hook
observes it (bridge.ts lines 48–57): a plain return value, a generator
producing a list of items, a generator raising after some items, or a
raising call. -/
inductive MethodBehavior where
  | value (v : JVal)
  | gen (vs : List JVal)
  | genRaise (vs : List JVal) (trace : String)
  | raise (trace : String)

/-- Response messages the Python hook prints for one request (bridge.ts
lines 42–63): a non-generator result is printed as one yield message then
one bare-id completion message; a generator prints one yield message per
item then the completion; an exception prints one error message and no
completion. -/
def hookEmit (id : Nat) : MethodBehavior → List RpcMessage
  | .value v => [⟨id, none, some v, none⟩, ⟨id, none, none, none⟩]
  | .gen vs => vs.map (fun v => ⟨id, none, some v, none⟩) ++ [⟨id, none, none, none⟩]
  | .genRaise vs t => vs.map (fun v => ⟨id, none, some v, none⟩) ++ [⟨id, none, none, some t⟩]
  | .raise t => [⟨id, none, none, some t⟩]

/-- Result of the promise returned by `subject.toPromise()`. -/
inductive PromiseResult where
  | pending
  | resolved (v : Option JVal)
  | rejected (e : String)
  deriving DecidableEq, Repr

/-- rxjs `Subject.toPromise()`: rejects on the first error notification,
resolves with the most recent `next` value (or `undefined`, modelled as
`none`) on completion, and stays pending if no terminal notification
arrives. -/
def toPromiseRun : List SubjectOp → Option JVal → PromiseResult
  | [], _ => .pending
  | .next v :: rest, _ => toPromiseRun rest (some v)
  | .error e :: _, _ => .rejected e
  | .complete :: _, last => .resolved last

/-- End-to-end single call on a fresh controller: `send` allocates id 0
and registers the sink, the subprocess prints the hook's responses for the
named method, `read` dispatches them, and the subject notifications
addressed to the call are collapsed by `toPromise`. -/
def callRoundTrip (σ : JVal → Option JVal) (method : String)
    (args : List JVal) (b : MethodBehavior) : List SubjectOp × PromiseResult :=
  let s := send ctrlInit method args σ
  let d := dispatchAll s.2.2 (hookEmit s.1 b)
  let ops := opsTo s.1 d.2.2
  (ops, toPromiseRun ops none)

/-- The proxy object returned by `PyBridge.controller` (bridge.ts lines
204–217): the environment captured by the `get` handler, namely an
identity tag for the `Controller` it wraps and the contract
`schema.shape` (method name to the `parse` of that method's declared
return type). -/
structure Facade where
  tag : Nat
  shape : String → Option (JVal → Option JVal)

/-- What an invocation through the proxy produces.  The `streamOf`
variant exists so the statement "the raw event stream is exposed" is
expressible; no code path of bridge.ts lines 210–214 produces it, since
the returned function always ends in `subject.toPromise()`. -/
inductive InvokeOutcome where
  | thrown (e : String)
  | promiseOf (r : PromiseResult)
  | streamOf (ops : List SubjectOp)
  deriving DecidableEq, Repr

/-- What the proxy's `get` trap returns for a property name (bridge.ts
lines 207–215): the reserved name `process` yields the child-process
handle; every other name yields an invocation function. -/
inductive ProxyMember where
  | processHandle
  | invokable
  deriving DecidableEq, Repr

/-- The `get` trap's case split on the property name (bridge.ts line 208). -/
def proxyGet (name : String) : ProxyMember :=
  if name = "process" then .processHandle else .invokable

/-- Invoking `facade.name(args)` for a non-reserved `name` (bridge.ts
lines 210–214): the returned function dereferences
`schema.shape[name].returnType()` — a `TypeError` at invocation when
`name` is not declared — then delegates to `Controller.send` and
collapses the resulting subject with `toPromise()`.  The remote method's
behaviour is the `b` argument. -/
def facadeCall (f : Facade) (name : String) (args : List JVal)
    (b : MethodBehavior) : InvokeOutcome :=
  match f.shape name with
  | none => .thrown "TypeError"
  | some σ => .promiseOf (callRoundTrip σ name args b).2

/-- The `PyBridge` instance state: the `controllers` cache (bridge.ts
line 186) and a counter giving each newly constructed `Controller`/proxy
pair its identity tag. -/
structure BridgeState where
  controllers : String → Option Facade
  nextTag : Nat

/-- A fresh `PyBridge`: empty cache. -/
def bridgeInit : BridgeState := ⟨fun _ => none, 0⟩

/-- `PyBridge.controller(moduleName, schema)` (bridge.ts lines 199–218):
return the cached proxy if one exists — the `schema` argument is then
never consulted — else construct a `Controller` and a proxy capturing
`schema`, cache it and return it.  No method name of the contract is
inspected during construction. -/
def bridgeController (st : BridgeState) (moduleName : String)
    (schema : String → Option (JVal → Option JVal)) : Facade × BridgeState :=
  match st.controllers moduleName with
  | some f => (f, st)
  | none =>
    let f : Facade := ⟨st.nextTag, schema⟩
    (f, ⟨fun n => if n = moduleName then some f else st.controllers n,
      st.nextTag + 1⟩)

/-- A schema whose `parse` accepts every value unchanged (e.g. `z.any()`). -/
def idSchema : JVal → Option JVal := fun v => some v

/-- A schema whose `parse` throws on every value. -/
def rejectAll : JVal → Option JVal := fun _ => none

/-- The wire line of claim C4, newline terminator included (19 bytes). -/
def yieldLine1 : List Char := "\x7b\"id\":1,\"yield\":1\x7d\n".toList

/-- A session with calls 7 and 8 in flight and an empty chunk buffer. -/
def sess78 : SessionState :=
  ⟨⟨9, fun i => if i = 7 then some idSchema
      else if i = 8 then some idSchema else none⟩, []⟩

/-- First chunk: a complete completion line for id 7, a newline, then the
leading bytes of a completion line for id 8. -/
def chunk78a : List Char := "\x7b\"id\":7\x7d\n\x7b\"id\":8".toList

/-- Second chunk: the remaining bytes of id 8's line and its newline. -/
def chunk78b : List Char := "\x7d\n".toList

/-- A controller with call 0 expecting `rejectAll` and call 1 expecting
`idSchema`, both in flight. -/
def ctrl01 : CtrlState :=
  ⟨2, fun i => if i = 0 then some rejectAll
      else if i = 1 then some idSchema else none⟩

/-- A contract declaring exactly one method, `foo`. -/
def schemaFooOnly : String → Option (JVal → Option JVal) :=
  fun n => if n = "foo" then some idSchema else none

/-- A contract accepting any method name with an accept-all return type. -/
def anySchemaShape : String → Option (JVal → Option JVal) :=
  fun _ => some idSchema

/-- A controller with exactly call 0 in flight (the state right after the
first `send` on a fresh controller). -/
def ctrlW : CtrlState := ⟨1, fun i => if i = 0 then some idSchema else none⟩

/-- A single complete, newline-terminated completion line for id 3. -/
def chunkW : List Char := "\x7b\"id\":3\x7d\n".toList

/-! ### Helper lemmas -/

/-- The subscriber callback deletes its entry exactly when the message is
neither ready-truthy nor yield-truthy: the error branch and the completion
branch both delete, the ready and yield branches never do. -/
theorem sinkCallback_snd (σ : JVal → Option JVal) (m : RpcMessage) :
    (sinkCallback σ m).2 = unregisters m := by
  unfold sinkCallback unregisters
  cases hr : truthyReady m.ready with
  | true => simp
  | false =>
    cases hy : truthyYield m.yield with
    | true =>
      rcases hv : m.yield with _ | v
      · simp [hv, truthyYield] at hy
      · rcases hs : σ v with _ | w <;> simp [hv, hs]
    | false =>
      rcases m.error with _ | e
      · simp [hy]
      · by_cases he : e = "" <;> simp [hy, he]

/-- Projecting the invocation log distributes over concatenation. -/
theorem deliveredTo_append (j : Nat) (xs ys : List (Nat × RpcMessage)) :
    deliveredTo j (xs ++ ys) = deliveredTo j xs ++ deliveredTo j ys := by
  simp [deliveredTo]

/-- Dispatching never changes the `messageId` counter. -/
theorem dispatch_messageId (st : CtrlState) (msg : RpcMessage) :
    (dispatch st msg).1.messageId = st.messageId := by
  rcases hsub : st.subscribers msg.id with _ | σ <;> simp [dispatch, hsub]

/-- Dispatching a message with no registered sink is a no-op. -/
theorem dispatch_none (st : CtrlState) (msg : RpcMessage)
    (hsub : st.subscribers msg.id = none) :
    dispatch st msg = (st, [], []) := by
  simp [dispatch, hsub]

/-- Dispatching a message with a registered sink invokes exactly that
sink, with that message. -/
theorem dispatch_invoked (st : CtrlState) (msg : RpcMessage)
    (σ : JVal → Option JVal) (hsub : st.subscribers msg.id = some σ) :
    (dispatch st msg).2.1 = [(msg.id, msg)] := by
  simp [dispatch, hsub]

/-- Dispatching leaves every other id's registration untouched. -/
theorem dispatch_subscribers_ne (st : CtrlState) (msg : RpcMessage)
    (j : Nat) (hid : ¬ msg.id = j) :
    (dispatch st msg).1.subscribers j = st.subscribers j := by
  have hji : ¬ j = msg.id := fun h => hid h.symm
  rcases hsub : st.subscribers msg.id with _ | σ
  · simp [dispatch, hsub]
  · by_cases hc : (sinkCallback σ msg).2 = true <;>
      simp [dispatch, hsub, hc, hji]

/-- After dispatching to a registered sink, that id remains registered
exactly when the message was not terminal for it. -/
theorem dispatch_subscribers_self (st : CtrlState) (msg : RpcMessage)
    (σ : JVal → Option JVal) (hsub : st.subscribers msg.id = some σ) :
    ((dispatch st msg).1.subscribers msg.id).isSome = !unregisters msg := by
  rw [← sinkCallback_snd σ msg]
  by_cases hc : (sinkCallback σ msg).2 = true <;>
    simp [dispatch, hsub, hc]

/-! ### Claims -/

/-- C2 (code_bug evidence): for the non-generator return value `0` the
subprocess does print exactly one yield message carrying `0` followed by
one completion message, but the host's `else if (data.yield)` truthiness
test routes the falsy yield into the completion branch: the caller's
subject sees only `complete`, never `next 0`, and the single-value facade
resolves with `undefined` (`none`) instead of `0`. -/
theorem c2_falsy_yield_bug :
    hookEmit 0 (.value (.jnum 0))
        = [⟨0, none, some (.jnum 0), none⟩, ⟨0, none, none, none⟩]
      ∧ callRoundTrip idSchema "f" [] (.value (.jnum 0))
        = ([.complete], .resolved none) := by
  constructor
  · rfl
  · decide

/-- C3 (counterexample): chunk `chunk78a` holds a complete line for id 7,
a newline, and the first bytes of id 8's line; `chunk78b` delivers the
rest of id 8's line and its terminating newline.  The claim says the
buffer keeps the bytes after the last consumed newline so id 8's event is
not lost.  In fact `read` clears the whole buffer (`buffer.length = 0`),
so the sink of call 8 is never invoked even though the terminating newline
arrived, while call 7 got its event. -/
theorem c3_buffer_discard_counterexample :
    (readChunk sess78 chunk78a).state.buffer = []
      ∧ deliveredTo 8 (readChunks sess78 [chunk78a, chunk78b]).invoked = []
      ∧ deliveredTo 7 (readChunks sess78 [chunk78a, chunk78b]).invoked
          = [⟨7, none, none, none⟩] := by
  refine ⟨?_, ?_, ?_⟩ <;> decide

/-- C4 (confirmed): feeding the 19 bytes of the line
`{"id":1,"yield":1}\n` as two chunks split at any offset `k` produces
exactly one decoded yield event with id 1 and value 1, the same as
feeding the line whole. -/
theorem c4_split_invariance (k : Nat) :
    (readChunks ⟨ctrlInit, []⟩ [yieldLine1.take k, yieldLine1.drop k]).decoded
      = [⟨1, none, some (.jnum 1), none⟩] := by
  rcases Nat.lt_or_ge k 19 with hk | hk
  · have h : ∀ m, m < 19 →
        (readChunks ⟨ctrlInit, []⟩
            [yieldLine1.take m, yieldLine1.drop m]).decoded
          = [⟨1, none, some (.jnum 1), none⟩] := by decide
    exact h k hk
  · have hlen : yieldLine1.length = 19 := rfl
    have h1 : yieldLine1.take k = yieldLine1 :=
      List.take_of_length_le (by rw [hlen]; exact hk)
    have h2 : yieldLine1.drop k = [] :=
      List.drop_eq_nil_of_le (by rw [hlen]; exact hk)
    rw [h1, h2]
    decide

/-- C5 (counterexample): call 0 is in flight with a schema whose `parse`
throws on every value, call 1 shares the session.  A yield for call 0
whose (truthy) value fails validation produces no subject notification at
all — in particular no error notification, so the caller's stream does
not fail — and call 0 remains registered; the claim says the failure is
surfaced as an error to the caller. -/
theorem c5_validation_swallowed_counterexample :
    (dispatch ctrl01 ⟨0, none, some (.jstr "bad"), none⟩).2.2 = []
      ∧ ((dispatch ctrl01 ⟨0, none, some (.jstr "bad"), none⟩).1.subscribers 0).isSome
          = true
      ∧ ((dispatch ctrl01 ⟨0, none, some (.jstr "bad"), none⟩).1.subscribers 1).isSome
          = true := by
  refine ⟨?_, ?_, ?_⟩ <;> decide

/-- C6 (code_bug evidence): invoking a method whose contract-declared
return type is a stream (the `PromisifyFn` type maps `Subject`-returning
methods to `Subject`), with the remote method a generator yielding 1 then
2, does not expose the raw event stream: the proxy's returned function
always ends in `subject.toPromise()`, so the caller receives a collapsed
single-value promise — which resolves with only the last yield, 2. -/
theorem c6_stream_collapsed :
    facadeCall ⟨0, anySchemaShape⟩ "gen" [] (.gen [.jnum 1, .jnum 2])
      = .promiseOf (.resolved (some (.jnum 2))) := by
  decide

/-- C10 (confirmed): a second `PyBridge.controller` call with the same
module name and a different schema returns exactly the proxy cached by the
first call, whose captured contract is the first schema; the second schema
is never consulted. -/
theorem c10_cached_controller (σ1 σ2 : String → Option (JVal → Option JVal))
    (name : String) :
    (bridgeController (bridgeController bridgeInit name σ1).2 name σ2).1
        = (bridgeController bridgeInit name σ1).1
      ∧ (bridgeController (bridgeController bridgeInit name σ1).2 name σ2).1.shape
        = σ1 := by
  simp [bridgeController, bridgeInit]

/-- C3 (amended): after extraction the buffer is cleared entirely — bytes
following the last consumed newline are discarded rather than retained —
so an event whose leading bytes share a chunk with an earlier newline can
be lost; but when every chunk ends with its terminating newline, every
complete line is extracted and decoded exactly once, in order, and the
buffer is empty after every chunk. -/
theorem c3_buffer_discard_amended (ctrl : CtrlState)
    (chunks : List (List Char)) (h : ∀ c ∈ chunks, ∃ d, c = d ++ ['\n']) :
    (readChunks ⟨ctrl, []⟩ chunks).decoded
        = (chunks.map (fun c => (splitNl (trimCh c)).filterMap decodeLine)).flatten
      ∧ (readChunks ⟨ctrl, []⟩ chunks).state.buffer = [] := by
  induction chunks generalizing ctrl with
  | nil => exact ⟨rfl, rfl⟩
  | cons c cs ih =>
    obtain ⟨d, rfl⟩ := h c (List.mem_cons_self _ _)
    have hcont : (d ++ ['\n']).contains '\n' = true :=
      List.elem_eq_true_of_mem (by simp)
    have ihh := ih (dispatchAll ctrl
        ((splitNl (trimCh (d ++ ['\n']))).filterMap decodeLine)).1
      (fun c hc => h c (List.mem_cons_of_mem _ hc))
    simp only [readChunks, readChunk, List.nil_append, hcont, if_true,
      List.flatten_cons, List.map_cons, List.flatten, List.singleton_append,
      List.append_nil]
    exact ⟨by rw [ihh.1], by rw [ihh.2]⟩

/-- Witness for the amended C3 theorem at a concrete input: one
newline-terminated chunk holding a completion line for id 3. -/
theorem c3_buffer_discard_amended_witness :
    (readChunks ⟨ctrlInit, []⟩ [chunkW]).decoded = [⟨3, none, none, none⟩]
      ∧ (readChunks ⟨ctrlInit, []⟩ [chunkW]).state.buffer = [] := by
  have h := c3_buffer_discard_amended ctrlInit [chunkW]
    (by
      intro c hc
      simp only [List.mem_singleton] at hc
      subst hc
      exact ⟨"\x7b\"id\":3\x7d".toList, by decide⟩)
  exact ⟨h.1.trans (by decide), h.2⟩

/-- C5 (amended): a yield whose truthy value fails validation against the
call's schema is silently dropped — `schema.parse` throws, the empty
`catch` swallows it, no notification reaches any subject — and every
registration, the failing call's included, is left exactly as it was, so
other in-flight calls are unaffected. -/
theorem c5_validation_swallowed_amended (st : CtrlState) (i : Nat)
    (σ : JVal → Option JVal) (v : JVal) (hreg : st.subscribers i = some σ)
    (hty : jsTruthy v = true) (hval : σ v = none) :
    (dispatch st ⟨i, none, some v, none⟩).2.2 = []
      ∧ ∀ idx, (dispatch st ⟨i, none, some v, none⟩).1.subscribers idx
          = st.subscribers idx := by
  have hcb : sinkCallback σ ⟨i, none, some v, none⟩ = ([], false) := by
    simp [sinkCallback, truthyReady, truthyYield, hty, hval]
  refine ⟨?_, ?_⟩ <;> simp [dispatch, hreg, hcb]

/-- Witness for the amended C5 theorem at a concrete input. -/
theorem c5_validation_swallowed_amended_witness :
    (dispatch ctrl01 ⟨0, none, some (.jstr "nope"), none⟩).2.2 = [] :=
  (c5_validation_swallowed_amended ctrl01 0 rejectAll (.jstr "nope")
    rfl (by decide) rfl).1

/-- C7 (counterexample): the facade for a contract declaring only `foo`
is constructed without any rejection — it is immediately functional, as
the successful `foo` invocation shows — and the undeclared name `bar` is
rejected only when the method is invoked, as the `TypeError` from
dereferencing `schema.shape["bar"]` inside the returned function. -/
theorem c7_undeclared_method_counterexample :
    (bridgeController bridgeInit "m" schemaFooOnly).1.shape "bar" = none
      ∧ facadeCall (bridgeController bridgeInit "m" schemaFooOnly).1 "bar" []
          (.value (.jnum 1)) = .thrown "TypeError"
      ∧ facadeCall (bridgeController bridgeInit "m" schemaFooOnly).1 "foo" []
          (.value (.jnum 1)) = .promiseOf (.resolved (some (.jnum 1))) := by
  refine ⟨rfl, ?_, ?_⟩ <;> decide

/-- C7 (amended): calling a method name not declared in the contract
throws a `TypeError` at invocation time — when the function returned by
the proxy's `get` handler dereferences `schema.shape[name]` — while
constructing the facade never inspects method names. -/
theorem c7_undeclared_method_amended (f : Facade) (name : String)
    (args : List JVal) (b : MethodBehavior)
    (_hp : proxyGet name = .invokable) (h : f.shape name = none) :
    facadeCall f name args b = .thrown "TypeError" := by
  simp [facadeCall, h]

/-- Witness for the amended C7 theorem at a concrete input. -/
theorem c7_undeclared_method_amended_witness :
    facadeCall ⟨0, schemaFooOnly⟩ "baz" [] (.value .jnull)
      = .thrown "TypeError" :=
  c7_undeclared_method_amended ⟨0, schemaFooOnly⟩ "baz" [] (.value .jnull)
    (by decide) rfl

/-- C8 (confirmed): a call whose remote method raises with trace text `t`
(nonempty, as `traceback.format_exception` output always is) makes the
subprocess print exactly one error message and no completion message for
that id, and the single-value facade rejects with `t`. -/
theorem c8_remote_error (i : Nat) (t : String) (ht : t ≠ "")
    (σ : JVal → Option JVal) :
    hookEmit i (.raise t) = [⟨i, none, none, some t⟩]
      ∧ (hookEmit i (.raise t)).countP (fun m => m.error.isSome) = 1
      ∧ (hookEmit i (.raise t)).countP
          (fun m => m.ready.isNone && m.yield.isNone && m.error.isNone) = 0
      ∧ callRoundTrip σ "f" [] (.raise t) = ([.error t], .rejected t) := by
  refine ⟨rfl, by simp [hookEmit, List.countP, List.countP.go], ?_, ?_⟩
  · simp [hookEmit, List.countP, List.countP.go]
  · simp [callRoundTrip, send, ctrlInit, hookEmit, dispatchAll, dispatch,
      sinkCallback, truthyReady, truthyYield, opsTo, toPromiseRun, ht]

/-- Witness for C8 at a concrete input. -/
theorem c8_remote_error_witness :
    hookEmit 4 (.raise "boom") = [⟨4, none, none, some "boom"⟩]
      ∧ (hookEmit 4 (.raise "boom")).countP (fun m => m.error.isSome) = 1
      ∧ (hookEmit 4 (.raise "boom")).countP
          (fun m => m.ready.isNone && m.yield.isNone && m.error.isNone) = 0
      ∧ callRoundTrip idSchema "f" [] (.raise "boom")
        = ([.error "boom"], .rejected "boom") :=
  c8_remote_error 4 "boom" (by decide) idSchema

/-- Generalized per-id projection: for any id strictly below the counter,
the messages its sink is invoked with over an interleaved trace are
exactly its own-id response lines in processing order, truncated after the
first terminal one, and starting from its current registration status.
Interleaved call requests register only fresh ids and so never disturb the
projection. -/
theorem c1_aux (ops : List TraceOp) (st : CtrlState) (j : Nat)
    (hj : j < st.messageId) :
    deliveredTo j (runTrace st ops).invoked
      = sinkTrace ((st.subscribers j).isSome)
          ((linesOf ops).filter (fun m => m.id == j)) := by
  induction ops generalizing st with
  | nil =>
    cases h : (st.subscribers j).isSome <;>
      simp [runTrace, deliveredTo, linesOf, sinkTrace]
  | cons op ops ih =>
    cases op with
    | callReq mth a σ =>
      have hmsg : ((send st mth a σ).2.2).messageId = st.messageId + 1 := rfl
      have hsub : ((send st mth a σ).2.2).subscribers j = st.subscribers j := by
        show (if j = st.messageId then some σ else st.subscribers j) = _
        rw [if_neg (by omega)]
      simp only [runTrace, linesOf]
      rw [ih _ (by rw [hmsg]; omega), hsub]
    | respLine msg =>
      simp only [runTrace, linesOf, List.filter_cons, deliveredTo_append]
      have ihd := ih ((dispatch st msg).1)
        (by rw [dispatch_messageId]; exact hj)
      rcases hsub : st.subscribers msg.id with _ | σ
      · rw [dispatch_none st msg hsub] at ihd ⊢
        by_cases hid : msg.id = j
        · have hnone : (st.subscribers j).isSome = false := by
            rw [← hid, hsub]; rfl
          rw [ihd, hnone]
          simp [hid, sinkTrace, deliveredTo]
        · have hne : (msg.id == j) = false := by simp [hid]
          rw [ihd, hne]
          simp [deliveredTo]
      · rw [dispatch_invoked st msg σ hsub, ihd]
        by_cases hid : msg.id = j
        · subst hid
          rw [dispatch_subscribers_self st msg σ hsub]
          have hs : (st.subscribers msg.id).isSome = true := by
            rw [hsub]; rfl
          rw [hs]
          have hone : deliveredTo msg.id [(msg.id, msg)] = [msg] := by
            simp [deliveredTo]
          rw [hone]
          simp [sinkTrace]
        · rw [dispatch_subscribers_ne st msg j hid]
          have hzero : deliveredTo j [(msg.id, msg)] = [] := by
            simp [deliveredTo, hid]
          have hne : (msg.id == j) = false := by simp [hid]
          rw [hzero, hne]
          simp

/-- C1 (confirmed): over any interleaved trace of call requests and
decoded response lines, a caller whose call is registered in a
well-formed controller state has its sink invoked with exactly the
decoded lines carrying its own correlation id, in processing order
(truncated after its first terminal event, whose handling deletes the
registration), and never with a line addressed to a different id. -/
theorem c1_per_id_delivery (st : CtrlState) (ops : List TraceOp) (j : Nat)
    (σ : JVal → Option JVal) (hreg : st.subscribers j = some σ)
    (hwf : wfCtrl st) :
    deliveredTo j (runTrace st ops).invoked
      = sinkTrace true ((linesOf ops).filter (fun m => m.id == j)) := by
  have hj : j < st.messageId := hwf j (by rw [hreg]; rfl)
  have h := c1_aux ops st j hj
  rwa [hreg] at h

/-- Witness for C1 at a concrete input: one registered call, one response
line addressed to it. -/
theorem c1_per_id_delivery_witness :
    deliveredTo 0 (runTrace ctrlW
        [.respLine ⟨0, none, some (.jnum 5), none⟩]).invoked
      = [⟨0, none, some (.jnum 5), none⟩] := by
  have h := c1_per_id_delivery ctrlW
      [.respLine ⟨0, none, some (.jnum 5), none⟩] 0 idSchema rfl
      (fun i hi => by
        by_cases hi0 : i = 0
        · subst hi0; exact Nat.one_pos
        · exfalso
          have hn : ctrlW.subscribers i = none := by
            show (if i = 0 then some idSchema else none) = none
            rw [if_neg hi0]
          rw [hn] at hi
          exact Bool.noConfusion hi)
  exact h.trans (by decide)

/-- Allocation over a trace from any well-formed state: the ids handed
out by the `callReq` steps are consecutive from the current counter, and
well-formedness is preserved. -/
theorem c9_aux (ops : List TraceOp) (st : CtrlState) (hwf : wfCtrl st) :
    (runTrace st ops).allocs = List.range' st.messageId (numCalls ops)
      ∧ wfCtrl (runTrace st ops).state := by
  induction ops generalizing st with
  | nil => exact ⟨rfl, hwf⟩
  | cons op ops ih =>
    cases op with
    | callReq mth a σ =>
      have hwf2 : wfCtrl (send st mth a σ).2.2 := by
        intro i hi
        show i < st.messageId + 1
        by_cases hi0 : i = st.messageId
        · omega
        · have : (send st mth a σ).2.2.subscribers i = st.subscribers i := by
            show (if i = st.messageId then some σ else st.subscribers i) = _
            rw [if_neg hi0]
          rw [this] at hi
          exact Nat.lt_succ_of_lt (hwf i hi)
      have h := ih _ hwf2
      simp only [runTrace, numCalls]
      exact ⟨by rw [h.1]; rfl, h.2⟩
    | respLine msg =>
      have hwf2 : wfCtrl (dispatch st msg).1 := by
        intro i hi
        rw [dispatch_messageId]
        by_cases hid : msg.id = i
        · subst hid
          rcases hsub : st.subscribers msg.id with _ | σ
          · rw [dispatch_none st msg hsub] at hi
            exact hwf _ hi
          · exact hwf _ (by rw [hsub]; rfl)
        · rw [dispatch_subscribers_ne st msg i hid] at hi
          exact hwf i hi
      have h := ih _ hwf2
      simp only [runTrace, numCalls]
      exact ⟨by rw [h.1, dispatch_messageId], h.2⟩

/-- C9 (confirmed): within one session the correlation ids allocated by
successive sends are `0, 1, 2, …` — one per call, pairwise distinct, so
never reused — every registered id stays below the counter, and the id the
next send will allocate is never currently registered (so a send never
overwrites an existing pending call: at most one pending call per id ever
exists). -/
theorem c9_id_allocation (ops : List TraceOp) :
    (runTrace ctrlInit ops).allocs = List.range (numCalls ops)
      ∧ (runTrace ctrlInit ops).allocs.Nodup
      ∧ wfCtrl (runTrace ctrlInit ops).state
      ∧ (runTrace ctrlInit ops).state.subscribers
          (runTrace ctrlInit ops).state.messageId = none := by
  have h := c9_aux ops ctrlInit
    (fun i hi => by
      have : (ctrlInit.subscribers i) = none := rfl
      rw [this] at hi
      exact Bool.noConfusion hi)
  have hr : (runTrace ctrlInit ops).allocs = List.range (numCalls ops) := by
    rw [h.1]
    show List.range' 0 (numCalls ops) = _
    exact (List.range_eq_range' (numCalls ops)).symm
  refine ⟨hr, by rw [hr]; exact List.nodup_range (numCalls ops), h.2, ?_⟩
  rcases hs : (runTrace ctrlInit ops).state.subscribers
      (runTrace ctrlInit ops).state.messageId with _ | σ
  · rfl
  · exact absurd (h.2 _ (by rw [hs]; rfl)) (lt_irrefl _)

end PyBridgeZod
